import Mathlib

/-
Verification model of the raster-image editor consisting of
`history_manager.py` (class HistoryManager), `image_processor.py`
(class ImageProcessor) and `main.py` (class ImageProcessingApp).

Modelling conventions:
- An image is a matrix of single-channel pixel values (`List (List Nat)`,
  each value in 0..255), that is, a gray image with equal B, G, R
  channels.  For such data the OpenCV calls used by the source have
  exact arithmetic meaning: `cv2.add`/`cv2.subtract` are saturating
  addition/subtraction, `cv2.convertScaleAbs` is round-half-to-even of
  `alpha * v` saturated at 255, and the uint8 BGR/HSV round trip
  performed by `adjust_brightness` is exact on the value channel
  because gray pixels have saturation 0.  On color pixels that round
  trip quantizes hue (stored halved and rounded) and saturation and is
  lossy, e.g. BGR (0, 5, 255) comes back as (0, 8, 255); where that
  matters (claim C6) the development works with the channel-agnostic
  `adjustBrightnessGen`, which keeps the pixel primitives abstract.
- Truly external pixel primitives whose kernels the source never defines
  (`cv2.GaussianBlur`, the LANCZOS4 interpolation of `cv2.resize`) are
  passed as explicit function parameters `g` and `interp` of the
  definitions that call them.
- `numpy` `.copy()` calls produce value copies; since the model is pure,
  a copy is the value itself.
- Python `raise ValueError` is modelled by `Except String`; a `try`/
  `except` block that swallows the error and leaves the state alone is
  modelled by returning the unchanged state.
- The history cursor `_current_index` is a Python int and can be `-1`,
  so it is modelled as `Int`; list lengths coerce to `Int` where the
  source compares them with the cursor.
-/

abbrev Pix := Nat

abbrev Img := List (List Pix)

namespace ImageProcessor

/-- Saturating add / subtract on the value channel: the effect of
`cv2.add(v, value)` resp. `cv2.subtract(v, abs(value))` in
`ImageProcessor.adjust_brightness`. -/
def brightPix (value : Int) (v : Pix) : Pix :=
  if 0 ≤ value then min 255 (v + value.toNat) else v - value.natAbs

/-- Model of `ImageProcessor.adjust_brightness(image, value)` on gray
images only: adjust the value channel of every pixel by `value`,
saturating at 0 and 255.  The uint8 BGR to HSV to BGR round trip the
source performs is exact on gray pixels (saturation 0) but lossy on
color pixels, so this definition is a faithful model only for the
single-channel images used here; `adjustBrightnessGen` below covers the
handler with the primitive left abstract. -/
def adjust_brightness (image : Img) (value : Int) : Img :=
  image.map (List.map (brightPix value))

/-- Numerator of the contrast gain over denominator 100:
`alpha = max(0.5, min(3.0, 1.0 + value/100))` in
`ImageProcessor.adjust_contrast`, scaled by 100. -/
def contrastAlphaNum (value : Int) : Nat :=
  (max 50 (min 300 (100 + value))).toNat

/-- Nearest integer to `n / d`, ties to even: the rounding performed by
`cv2.convertScaleAbs` (cvRound) on nonnegative data. -/
def roundHalfEvenDiv (n d : Nat) : Nat :=
  if 2 * (n % d) < d then n / d
  else if d < 2 * (n % d) then n / d + 1
  else if (n / d) % 2 = 0 then n / d else n / d + 1

/-- Effect of `cv2.convertScaleAbs(image, alpha, beta=0)` on one pixel. -/
def contrastPix (value : Int) (v : Pix) : Pix :=
  min 255 (roundHalfEvenDiv (contrastAlphaNum value * v) 100)

/-- Model of `ImageProcessor.adjust_contrast(image, value)`:
`new = saturate(round(alpha * old))` with `alpha` clamped to [0.5, 3.0]. -/
def adjust_contrast (image : Img) (value : Int) : Img :=
  image.map (List.map (contrastPix value))

/-- Model of `ImageProcessor.blur(image, intensity)`: clamp the kernel size to at
least 1, promote an even size to the next odd one, then call the external
Gaussian blur `g` with that kernel size. -/
def blur (g : Img → Nat → Img) (image : Img) (intensity : Int) : Img :=
  let kernel_size := (max 1 intensity).toNat
  let kernel_size := if kernel_size % 2 = 0 then kernel_size + 1 else kernel_size
  g image kernel_size

/-- Model of `cv2.rotate(image, cv2.ROTATE_90_CLOCKWISE)` on a row matrix. -/
def rot90cw (image : Img) : Img :=
  image.transpose.map List.reverse

/-- Model of `cv2.rotate(image, cv2.ROTATE_180)` on a row matrix. -/
def rot180 (image : Img) : Img :=
  (image.map List.reverse).reverse

/-- Model of `cv2.rotate(image, cv2.ROTATE_90_COUNTERCLOCKWISE)` on a row matrix. -/
def rot90ccw (image : Img) : Img :=
  image.transpose.reverse

def rotateErr : String := "Angle must be 90, 180, or 270 degrees"

/-- Model of `ImageProcessor.rotate(image, angle)`: rotate by 90, 180 or 270
degrees, raising ValueError on any other angle. -/
def rotate (image : Img) (angle : Int) : Except String Img :=
  if angle = 90 then .ok (rot90cw image)
  else if angle = 180 then .ok (rot180 image)
  else if angle = 270 then .ok (rot90ccw image)
  else .error rotateErr

def flipErr : String := "Direction must be \x27horizontal\x27 or \x27vertical\x27"

/-- Model of `ImageProcessor.flip(image, direction)`: `cv2.flip(image, 1)` mirrors
each row, `cv2.flip(image, 0)` reverses the row order; any other
direction string raises ValueError. -/
def flip (image : Img) (direction : String) : Except String Img :=
  if direction = "horizontal" then .ok (image.map List.reverse)
  else if direction = "vertical" then .ok image.reverse
  else .error flipErr

def resizeErr : String := "Scale percentage must be positive"

/-- Model of `ImageProcessor.resize(image, scale_percent)`: raise ValueError when
the percentage is not positive; otherwise compute the new width and
height (truncating division, floored at 1) and hand the image to the
external LANCZOS4 interpolation `interp`. -/
def resize (interp : Img → Nat → Nat → Img) (image : Img)
    (scale_percent : ℚ) : Except String Img :=
  if scale_percent ≤ 0 then .error resizeErr
  else
    let width := max 1 (⌊((image.headD []).length : ℚ) * scale_percent / 100⌋.toNat)
    let height := max 1 (⌊(image.length : ℚ) * scale_percent / 100⌋.toNat)
    .ok (interp image width height)

end ImageProcessor

/-- State of `HistoryManager` from `history_manager.py`: the private
fields `_history`, `_current_index` and `_max_history`.  The element type
is abstract because the class stores numpy arrays opaquely. -/
structure HistoryManager (α : Type) where
  history : List α
  current_index : Int
  max_history : Nat
deriving DecidableEq

namespace HistoryManager

/-- Model of `HistoryManager.__init__(max_history)`: empty history, cursor -1. -/
def mkHM (α : Type) (max_history : Nat) : HistoryManager α :=
  { history := [], current_index := -1, max_history := max_history }

/-- Model of `HistoryManager.add_state(image_state)`: drop everything after the
cursor when the cursor is not at the end, append the new state, advance
the cursor, then if the capacity is exceeded pop the front element and
pull the cursor back by one. -/
def add_state (h : HistoryManager α) (image_state : α) : HistoryManager α :=
  let hist :=
    if h.current_index < (h.history.length : Int) - 1 then
      h.history.take (h.current_index + 1).toNat
    else h.history
  let hist := hist ++ [image_state]
  let idx := h.current_index + 1
  if h.max_history < hist.length then
    { history := hist.tail, current_index := idx - 1, max_history := h.max_history }
  else
    { history := hist, current_index := idx, max_history := h.max_history }

/-- Model of `HistoryManager.undo()`: when the cursor is positive, step it back
and return the state now under it; otherwise return None and change
nothing. -/
def undo (h : HistoryManager α) : HistoryManager α × Option α :=
  if 0 < h.current_index then
    ({ h with current_index := h.current_index - 1 },
      h.history.get? (h.current_index - 1).toNat)
  else (h, none)

/-- Model of `HistoryManager.redo()`: when the cursor is before the last index,
step it forward and return the state now under it; otherwise return
None and change nothing. -/
def redo (h : HistoryManager α) : HistoryManager α × Option α :=
  if h.current_index < (h.history.length : Int) - 1 then
    ({ h with current_index := h.current_index + 1 },
      h.history.get? (h.current_index + 1).toNat)
  else (h, none)

/-- Model of `HistoryManager.get_current_state()`: the state under the cursor, or
None when the cursor is out of range. -/
def get_current_state (h : HistoryManager α) : Option α :=
  if 0 ≤ h.current_index ∧ h.current_index < (h.history.length : Int) then
    h.history.get? h.current_index.toNat
  else none

/-- Model of `HistoryManager.get_first_state()`: the front of the stored list, or
None when it is empty. -/
def get_first_state (h : HistoryManager α) : Option α :=
  h.history.head?

/-- Model of `HistoryManager.clear()`. -/
def clear (h : HistoryManager α) : HistoryManager α :=
  { history := [], current_index := -1, max_history := h.max_history }

/-- Model of `HistoryManager.can_undo()`. -/
def can_undo (h : HistoryManager α) : Bool :=
  0 < h.current_index

/-- Model of `HistoryManager.can_redo()`. -/
def can_redo (h : HistoryManager α) : Bool :=
  h.current_index < (h.history.length : Int) - 1

/-- Model of `HistoryManager.get_history_size()`. -/
def get_history_size (h : HistoryManager α) : Nat :=
  h.history.length

/-- Model of `HistoryManager.get_current_index()`. -/
def get_current_index (h : HistoryManager α) : Int :=
  h.current_index

end HistoryManager

/-- Run a pure sequence of `add_state` commits, oldest first. -/
def run_adds (l : List α) (h : HistoryManager α) : HistoryManager α :=
  l.foldl HistoryManager.add_state h

/-- One user-level history operation, for reachability statements. -/
inductive HistOp (α : Type) where
  | add (s : α)
  | undo
  | redo
  | clear

/-- Apply one history operation, discarding the returned snapshot. -/
def stepHist (h : HistoryManager α) : HistOp α → HistoryManager α
  | .add s => h.add_state s
  | .undo => h.undo.1
  | .redo => h.redo.1
  | .clear => h.clear

/-- Apply a sequence of history operations, oldest first. -/
def runHist (ops : List (HistOp α)) (h : HistoryManager α) : HistoryManager α :=
  ops.foldl stepHist h

/-- GUI-relevant state of `ImageProcessingApp` in `main.py`: the history
manager, `_current_image`, and the three slider values (`blurScale`,
`brightnessScale`, `contrastScale`). -/
structure App where
  hist : HistoryManager Img
  currentImg : Option Img
  blurS : Int
  brightS : Int
  contrastS : Int
deriving DecidableEq

/-- Model of `ImageProcessingApp.applyBlur`: recompute the preview from
`history.get_first_state()`, applying blur (skipped at intensity 1 or
below, even intensities promoted to odd), then brightness when nonzero,
then contrast when nonzero.  Returns the app unchanged when no image is
loaded or the history is empty. -/
def applyBlurH (g : Img → Nat → Img) (app : App) : App :=
  match app.currentImg with
  | none => app
  | some _ =>
    match app.hist.get_first_state with
    | none => app
    | some base =>
      let intensity := app.blurS
      let processed :=
        if intensity ≤ 1 then base
        else
          ImageProcessor.blur g base
            (if intensity % 2 = 0 then intensity + 1 else intensity)
      let processed :=
        if app.brightS ≠ 0 then ImageProcessor.adjust_brightness processed app.brightS
        else processed
      let processed :=
        if app.contrastS ≠ 0 then ImageProcessor.adjust_contrast processed app.contrastS
        else processed
      { app with currentImg := some processed }

/-- Model of `ImageProcessingApp.adjustBrightness`: recompute from
`history.get_first_state()`, folding in blur when above 1, then
brightness unconditionally, then contrast when nonzero.  When the
history is empty the blur call raises on None and the handler catches
the exception, leaving the state unchanged. -/
def adjustBrightnessH (g : Img → Nat → Img) (app : App) : App :=
  match app.currentImg with
  | none => app
  | some _ =>
    match app.hist.get_first_state with
    | none => app
    | some base =>
      let base :=
        if 1 < app.blurS then
          ImageProcessor.blur g base
            (if app.blurS % 2 = 0 then app.blurS + 1 else app.blurS)
        else base
      let processed := ImageProcessor.adjust_brightness base app.brightS
      let processed :=
        if app.contrastS ≠ 0 then ImageProcessor.adjust_contrast processed app.contrastS
        else processed
      { app with currentImg := some processed }

/-- Model of the same `ImageProcessingApp.adjustBrightness` handler over
an arbitrary snapshot type, with the three pixel primitives
(`processor.blur`, `processor.adjust_brightness`,
`processor.adjust_contrast`) abstract, exactly as they are external
library calls in the source.  It makes the control flow visible without
committing to any pixel arithmetic: the handler never compares the
brightness value against its neutral default before invoking the
brightness primitive. -/
def adjustBrightnessGen {σ : Type} (blurP brightP contrastP : σ → Int → σ)
    (currentImg firstState : Option σ)
    (blurv brightv contrastv : Int) : Option σ :=
  match currentImg with
  | none => currentImg
  | some _ =>
    match firstState with
    | none => currentImg
    | some base =>
      let base :=
        if 1 < blurv then blurP base (if blurv % 2 = 0 then blurv + 1 else blurv)
        else base
      let processed := brightP base brightv
      let processed :=
        if contrastv ≠ 0 then contrastP processed contrastv else processed
      some processed

/-- Model of `ImageProcessingApp.adjustContrast`: recompute from
`history.get_first_state()`, folding in blur when above 1, then contrast
unconditionally, then brightness when nonzero.  Note the order relative
to `adjustBrightness`: here contrast is applied before brightness. -/
def adjustContrastH (g : Img → Nat → Img) (app : App) : App :=
  match app.currentImg with
  | none => app
  | some _ =>
    match app.hist.get_first_state with
    | none => app
    | some base =>
      let base :=
        if 1 < app.blurS then
          ImageProcessor.blur g base
            (if app.blurS % 2 = 0 then app.blurS + 1 else app.blurS)
        else base
      let processed := ImageProcessor.adjust_contrast base app.contrastS
      let processed :=
        if app.brightS ≠ 0 then ImageProcessor.adjust_brightness processed app.brightS
        else processed
      { app with currentImg := some processed }

/-- Model of `ImageProcessingApp.updateImage(processed_image, ...)`: commit the
processed image to history, make it current, and reset the three sliders
to their defaults (brightness 0, contrast 0, blur 1). -/
def updateImage (processed : Img) (app : App) : App :=
  { hist := app.hist.add_state processed
    currentImg := some processed
    blurS := 1
    brightS := 0
    contrastS := 0 }

/-- A slider movement: Tk stores the new value in the Scale widget and
invokes the corresponding handler. -/
inductive Ev where
  | setBlur (v : Int)
  | setBright (v : Int)
  | setContrast (v : Int)

/-- Apply one slider-set event: store the new value, run the handler. -/
def stepEv (g : Img → Nat → Img) (app : App) : Ev → App
  | .setBlur v => applyBlurH g { app with blurS := v }
  | .setBright v => adjustBrightnessH g { app with brightS := v }
  | .setContrast v => adjustContrastH g { app with contrastS := v }

/-- Apply a sequence of slider-set events, oldest first. -/
def runEv (g : Img → Nat → Img) (evs : List Ev) (app : App) : App :=
  evs.foldl (stepEv g) app

/-- The current slider triple (blur, brightness, contrast). -/
def sliders (app : App) : Int × Int × Int :=
  (app.blurS, app.brightS, app.contrastS)

/-- Model of `ImageProcessingApp.rotateImage(angle)`: rotate the current image
and commit via `updateImage`; a ValueError from the processor is caught
and leaves the state unchanged. -/
def rotateImageH (angle : Int) (app : App) : App :=
  match app.currentImg with
  | none => app
  | some img =>
    match ImageProcessor.rotate img angle with
    | .ok processed => updateImage processed app
    | .error _ => app

/-- Model of `ImageProcessingApp.flipImage(direction)`. -/
def flipImageH (direction : String) (app : App) : App :=
  match app.currentImg with
  | none => app
  | some img =>
    match ImageProcessor.flip img direction with
    | .ok processed => updateImage processed app
    | .error _ => app

/-- Model of `ImageProcessingApp.resizeImage()` with the percentage already read
from the entry widget: the handler itself raises ValueError on a
non-positive scale before calling the processor, and catches it. -/
def resizeImageH (interp : Img → Nat → Nat → Img) (scale : ℚ) (app : App) : App :=
  match app.currentImg with
  | none => app
  | some img =>
    if scale ≤ 0 then app
    else
      match ImageProcessor.resize interp img scale with
      | .ok processed => updateImage processed app
      | .error _ => app

/-- Model of `ImageProcessingApp.resetImage` (with the confirmation dialog
answered yes): restore `history.get_first_state()` as the current image
and reset the sliders; warn and change nothing when no image is loaded. -/
def resetImageH (app : App) : App :=
  match app.hist.get_first_state with
  | none => app
  | some original =>
    { app with currentImg := some original, blurS := 1, brightS := 0, contrastS := 0 }

namespace HistoryManager

/-- Strengthened reachable-state invariant for the history manager. -/
def StrongInv (h : HistoryManager α) : Prop :=
  -1 ≤ h.current_index ∧ h.current_index < (h.history.length : Int) ∧
    (h.current_index = -1 ↔ h.history.length = 0) ∧
    h.history.length ≤ h.max_history

end HistoryManager

/-- Model step: perform an undo and keep only the new manager state. -/
def undoStep (h : HistoryManager α) : HistoryManager α := h.undo.1

/-- Model step: perform a redo and keep only the new manager state. -/
def redoStep (h : HistoryManager α) : HistoryManager α := h.redo.1

/-- The preview that `applyBlur` computes from the anchor for a given
parameter triple: blur, then brightness, then contrast. -/
def previewOfBlurSlider (g : Img → Nat → Img)
    (blurv brightv contrastv : Int) (base : Img) : Img :=
  let processed :=
    if blurv ≤ 1 then base
    else ImageProcessor.blur g base (if blurv % 2 = 0 then blurv + 1 else blurv)
  let processed :=
    if brightv ≠ 0 then ImageProcessor.adjust_brightness processed brightv
    else processed
  if contrastv ≠ 0 then ImageProcessor.adjust_contrast processed contrastv
  else processed

/-- The preview that `adjustBrightness` computes from the anchor:
blur, then brightness, then contrast. -/
def previewOfBrightSlider (g : Img → Nat → Img)
    (blurv brightv contrastv : Int) (base : Img) : Img :=
  let base :=
    if 1 < blurv then
      ImageProcessor.blur g base (if blurv % 2 = 0 then blurv + 1 else blurv)
    else base
  let processed := ImageProcessor.adjust_brightness base brightv
  if contrastv ≠ 0 then ImageProcessor.adjust_contrast processed contrastv
  else processed

/-- The preview that `adjustContrast` computes from the anchor:
blur, then contrast, then brightness. -/
def previewOfContrastSlider (g : Img → Nat → Img)
    (blurv brightv contrastv : Int) (base : Img) : Img :=
  let base :=
    if 1 < blurv then
      ImageProcessor.blur g base (if blurv % 2 = 0 then blurv + 1 else blurv)
    else base
  let processed := ImageProcessor.adjust_contrast base contrastv
  if brightv ≠ 0 then ImageProcessor.adjust_brightness processed brightv
  else processed

/-- The preview produced by the handler of a given slider event at a
given parameter triple. -/
def previewOfEv (g : Img → Nat → Img) (e : Ev)
    (p : Int × Int × Int) (base : Img) : Img :=
  match e with
  | .setBlur _ => previewOfBlurSlider g p.1 p.2.1 p.2.2 base
  | .setBright _ => previewOfBrightSlider g p.1 p.2.1 p.2.2 base
  | .setContrast _ => previewOfContrastSlider g p.1 p.2.1 p.2.2 base

/-- The parameter triple after a slider event. -/
def evUpd (e : Ev) (p : Int × Int × Int) : Int × Int × Int :=
  match e with
  | .setBlur v => (v, p.2.1, p.2.2)
  | .setBright v => (p.1, v, p.2.2)
  | .setContrast v => (p.1, p.2.1, v)

/-- A trivial stand-in for the external Gaussian blur: the blur slider
stays at its default in every concrete scenario below, so the handlers
provably never call it. -/
def g0 : Img → Nat → Img := fun image _ => image

/-- App state right after loading the one-pixel image [[100]]:
history [[[100]]] with cursor 0, sliders at defaults. -/
def app0 : App :=
  { hist := { history := [[[100]]], current_index := 0, max_history := 20 }
    currentImg := some [[100]]
    blurS := 1
    brightS := 0
    contrastS := 0 }

namespace HistoryManager

theorem run_adds_append (l : List α) (s : α) (h : HistoryManager α) :
    run_adds (l ++ [s]) h = (run_adds l h).add_state s := by
  simp [run_adds, List.foldl_append]

theorem run_adds_mkHM (l : List α) (N : Nat) (hN : 1 ≤ N) :
    run_adds l (mkHM α N) =
      { history := l.drop (l.length - N)
        current_index := ((min l.length N : Nat) : Int) - 1
        max_history := N } := by
  induction l using List.reverseRecOn with
  | nil => simp [run_adds, mkHM]
  | append_singleton l s ih =>
    rw [run_adds_append, ih]
    unfold add_state
    simp only [List.length_drop]
    have hmin : l.length - (l.length - N) = min l.length N := by omega
    rw [hmin]
    have hcond : ¬ (((min l.length N : Nat) : Int) - 1 < ((min l.length N : Nat) : Int) - 1) := by omega
    rw [if_neg hcond]
    by_cases hd : N ≤ l.length
    · have hm : min l.length N = N := by omega
      have hlen : N < (l.drop (l.length - N) ++ [s]).length := by
        simp [List.length_drop]; omega
      rw [if_pos (by simpa [hm] using hlen)]
      have e1 : 1 ≤ (l.drop (l.length - N)).length := by
        simp only [List.length_drop]; omega
      have e2 : (l ++ [s]).length - N ≤ l.length := by
        simp only [List.length_append, List.length_singleton]; omega
      have htail : (l.drop (l.length - N) ++ [s]).tail = (l ++ [s]).drop ((l ++ [s]).length - N) := by
        rw [← List.drop_one, List.drop_append_of_le_length e1, List.drop_drop,
          List.drop_append_of_le_length e2]
        congr 2
        simp only [List.length_append, List.length_singleton]
        omega
      rw [htail]
      congr 1
      simp only [List.length_append, List.length_singleton]
      omega
    · have hm : min l.length N = l.length := by omega
      have hlen : ¬ (N < (l.drop (l.length - N) ++ [s]).length) := by
        simp [List.length_drop]; omega
      rw [if_neg (by simpa [hm] using hlen)]
      have hdrop : l.length - N = 0 := by omega
      have hdrop2 : (l ++ [s]).length - N = 0 := by simp; omega
      rw [hdrop, hdrop2]
      simp only [List.drop_zero]
      congr 1
      simp only [List.length_append, List.length_singleton]
      omega

end HistoryManager

namespace HistoryManager

theorem strongInv_add_state (h : HistoryManager α) (s : α) (H : StrongInv h) :
    StrongInv (h.add_state s) := by
  obtain ⟨h1, h2, h3, h4⟩ := H
  unfold add_state
  by_cases ht : h.current_index < (h.history.length : Int) - 1
  · rw [if_pos ht]
    have hlen : (h.history.take (h.current_index + 1).toNat ++ [s]).length
        = (h.current_index + 1).toNat + 1 := by
      simp only [List.length_append, List.length_take, List.length_singleton]
      omega
    have hev : ¬ (h.max_history < (h.history.take (h.current_index + 1).toNat ++ [s]).length) := by
      rw [hlen]; omega
    rw [if_neg hev]
    unfold StrongInv
    dsimp only
    rw [hlen]
    refine ⟨by omega, by omega, by constructor <;> intro hx <;> omega, by omega⟩
  · rw [if_neg ht]
    have hlen : (h.history ++ [s]).length = h.history.length + 1 := by
      simp only [List.length_append, List.length_singleton]
    by_cases hev : h.max_history < (h.history ++ [s]).length
    · rw [if_pos hev]
      rw [hlen] at hev
      have hlt : (h.history ++ [s]).tail.length = h.history.length := by
        rw [List.length_tail, hlen]
        omega
      unfold StrongInv
      dsimp only
      rw [hlt]
      refine ⟨by omega, by omega, by constructor <;> intro hx <;> omega, by omega⟩
    · rw [if_neg hev]
      rw [hlen] at hev
      unfold StrongInv
      dsimp only
      rw [hlen]
      refine ⟨by omega, by omega, by constructor <;> intro hx <;> omega, by omega⟩

theorem strongInv_step (h : HistoryManager α) (op : HistOp α) (H : StrongInv h) :
    StrongInv (stepHist h op) := by
  obtain ⟨h1, h2, h3, h4⟩ := H
  cases op with
  | add s => exact strongInv_add_state h s ⟨h1, h2, h3, h4⟩
  | undo =>
    dsimp only [stepHist]
    unfold undo
    by_cases hc : 0 < h.current_index
    · rw [if_pos hc]
      unfold StrongInv
      dsimp only
      refine ⟨by omega, by omega, by constructor <;> intro hx <;> omega, h4⟩
    · rw [if_neg hc]
      exact ⟨h1, h2, h3, h4⟩
  | redo =>
    dsimp only [stepHist]
    unfold redo
    by_cases hc : h.current_index < (h.history.length : Int) - 1
    · rw [if_pos hc]
      unfold StrongInv
      dsimp only
      refine ⟨by omega, by omega, by constructor <;> intro hx <;> omega, h4⟩
    · rw [if_neg hc]
      exact ⟨h1, h2, h3, h4⟩
  | clear =>
    dsimp only [stepHist]
    unfold clear StrongInv
    dsimp only
    refine ⟨by omega, by simp, by simp, by simp⟩

theorem strongInv_runHist (ops : List (HistOp α)) (h : HistoryManager α) (H : StrongInv h) :
    StrongInv (runHist ops h) := by
  induction ops generalizing h with
  | nil => exact H
  | cons op ops ih => exact ih _ (strongInv_step h op H)

end HistoryManager

theorem undoStep_iter (k : Nat) : ∀ hm : HistoryManager α,
    (k : Int) ≤ hm.current_index →
    undoStep^[k] hm = { hm with current_index := hm.current_index - k } := by
  induction k with
  | zero =>
    intro hm h
    simp only [Function.iterate_zero_apply, Nat.cast_zero, sub_zero]
  | succ k ih =>
    intro hm h
    rw [Function.iterate_succ_apply]
    have hc : 0 < hm.current_index := by push_cast at h; omega
    have hstep : undoStep hm = { hm with current_index := hm.current_index - 1 } := by
      unfold undoStep HistoryManager.undo
      rw [if_pos hc]
    rw [hstep, ih _ (by dsimp only; push_cast at h ⊢; omega)]
    dsimp only
    congr 1
    push_cast
    ring

theorem redoStep_iter (k : Nat) : ∀ hm : HistoryManager α,
    hm.current_index + k ≤ (hm.history.length : Int) - 1 →
    redoStep^[k] hm = { hm with current_index := hm.current_index + k } := by
  induction k with
  | zero =>
    intro hm h
    simp only [Function.iterate_zero_apply, Nat.cast_zero, add_zero]
  | succ k ih =>
    intro hm h
    rw [Function.iterate_succ_apply]
    have hc : hm.current_index < (hm.history.length : Int) - 1 := by push_cast at h; omega
    have hstep : redoStep hm = { hm with current_index := hm.current_index + 1 } := by
      unfold redoStep HistoryManager.redo
      rw [if_pos hc]
    rw [hstep, ih _ (by dsimp only; push_cast at h ⊢; omega)]
    dsimp only
    congr 1
    push_cast
    ring

/-- Claim C5: every state reachable from a fresh HistoryManager by any
sequence of add_state, undo, redo and clear operations satisfies
-1 <= current_index < length of the history, with current_index = -1
exactly when the history is empty. -/
theorem claim_C5 (α : Type) (ops : List (HistOp α)) (N : Nat) :
    -1 ≤ (runHist ops (HistoryManager.mkHM α N)).current_index ∧
    (runHist ops (HistoryManager.mkHM α N)).current_index
        < ((runHist ops (HistoryManager.mkHM α N)).history.length : Int) ∧
    ((runHist ops (HistoryManager.mkHM α N)).current_index = -1 ↔
      (runHist ops (HistoryManager.mkHM α N)).history = []) := by
  have H := HistoryManager.strongInv_runHist ops (HistoryManager.mkHM α N)
    (by
      unfold HistoryManager.mkHM HistoryManager.StrongInv
      dsimp only
      refine ⟨by omega, by simp, by simp, by simp⟩)
  obtain ⟨h1, h2, h3, _⟩ := H
  exact ⟨h1, h2, by rw [h3, List.length_eq_zero]⟩

/-- Claim C3: with capacity N >= 1, a pure run of N + k commits retains
exactly the last N of them with the cursor on the final index, and
get_current_state returns the (N+k)-th committed snapshot. -/
theorem claim_C3 (α : Type) (l : List α) (N k : Nat) (hN : 1 ≤ N)
    (hl : l.length = N + k) :
    (run_adds l (HistoryManager.mkHM α N)).history.length = N ∧
    (run_adds l (HistoryManager.mkHM α N)).history = l.drop k ∧
    (run_adds l (HistoryManager.mkHM α N)).current_index = (N : Int) - 1 ∧
    (run_adds l (HistoryManager.mkHM α N)).get_current_state = l.get? (N + k - 1) ∧
    (l.get? (N + k - 1)).isSome = true := by
  rw [HistoryManager.run_adds_mkHM l N hN]
  have hmin : min l.length N = N := by omega
  have hk : l.length - N = k := by omega
  have hdl : (l.drop k).length = N := by rw [List.length_drop]; omega
  refine ⟨?_, ?_, ?_, ?_, ?_⟩
  · dsimp only
    rw [hk, hdl]
  · dsimp only
    rw [hk]
  · dsimp only
    rw [hmin]
  · unfold HistoryManager.get_current_state
    dsimp only
    rw [hmin, hk]
    rw [if_pos ⟨by omega, by rw [hdl]; omega⟩]
    rw [List.get?_eq_getElem?, List.getElem?_drop, ← List.get?_eq_getElem?]
    congr 1
    omega
  · rw [Option.isSome_iff_ne_none, Ne, List.get?_eq_none]
    omega

/-- Claim C3 witness: capacity 3, commits 10,20,30,40. -/
theorem claim_C3_witness :
    (run_adds [10, 20, 30, 40] (HistoryManager.mkHM Nat 3)).history.length = 3 ∧
    (run_adds [10, 20, 30, 40] (HistoryManager.mkHM Nat 3)).get_current_state = some 40 := by
  have h := claim_C3 Nat [10, 20, 30, 40] 3 1 (by norm_num) (by norm_num)
  exact ⟨h.1, by rw [h.2.2.2.1]; rfl⟩

/-- Claim C4: committing while the cursor is not at the last index first
discards every snapshot after the cursor, appends the new snapshot,
advances the cursor to the new last index, and leaves can_redo false. -/
theorem claim_C4 (α : Type) (hm : HistoryManager α) (s : α)
    (h1 : -1 ≤ hm.current_index)
    (h2 : hm.current_index < (hm.history.length : Int) - 1)
    (h3 : hm.history.length ≤ hm.max_history) :
    (hm.add_state s).history
        = hm.history.take (hm.current_index + 1).toNat ++ [s] ∧
    (hm.add_state s).current_index = hm.current_index + 1 ∧
    (hm.add_state s).current_index = ((hm.add_state s).history.length : Int) - 1 ∧
    (hm.add_state s).can_redo = false := by
  unfold HistoryManager.add_state
  rw [if_pos h2]
  have hlen : (hm.history.take (hm.current_index + 1).toNat ++ [s]).length
      = (hm.current_index + 1).toNat + 1 := by
    simp only [List.length_append, List.length_take, List.length_singleton]
    omega
  have hev : ¬ (hm.max_history
      < (hm.history.take (hm.current_index + 1).toNat ++ [s]).length) := by
    rw [hlen]; omega
  rw [if_neg hev]
  unfold HistoryManager.can_redo
  dsimp only
  rw [hlen]
  refine ⟨rfl, rfl, by omega, ?_⟩
  rw [decide_eq_false_iff_not]
  omega

/-- Claim C4 witness: history [10,20,30], cursor 0 (two undos deep),
commit 99. -/
theorem claim_C4_witness :
    (HistoryManager.add_state ⟨[10, 20, 30], 0, 20⟩ 99).history = [10, 99] ∧
    (HistoryManager.add_state ⟨[10, 20, 30], 0, 20⟩ 99).can_redo = false := by
  obtain ⟨ha, _, _, hd⟩ :=
    claim_C4 Nat ⟨[10, 20, 30], 0, 20⟩ 99 (by decide) (by decide) (by decide)
  refine ⟨?_, hd⟩
  rw [ha]
  rfl

/-- Claim C7: undo decrements the cursor and returns the snapshot now at
the cursor when the cursor is positive, and otherwise is a no-op
returning none; redo symmetrically; on a history of length at most one
both are no-ops. -/
theorem claim_C7 (α : Type) (hm : HistoryManager α)
    (h1 : -1 ≤ hm.current_index)
    (h2 : hm.current_index < (hm.history.length : Int))
    (h3 : hm.current_index = -1 ↔ hm.history = []) :
    (0 < hm.current_index →
      hm.undo = ({ hm with current_index := hm.current_index - 1 },
        hm.history.get? (hm.current_index - 1).toNat) ∧
      (hm.history.get? (hm.current_index - 1).toNat).isSome = true) ∧
    (hm.current_index ≤ 0 → hm.undo = (hm, none)) ∧
    (hm.current_index < (hm.history.length : Int) - 1 →
      hm.redo = ({ hm with current_index := hm.current_index + 1 },
        hm.history.get? (hm.current_index + 1).toNat) ∧
      (hm.history.get? (hm.current_index + 1).toNat).isSome = true) ∧
    ((hm.history.length : Int) - 1 ≤ hm.current_index → hm.redo = (hm, none)) ∧
    (hm.history.length ≤ 1 → hm.undo = (hm, none) ∧ hm.redo = (hm, none)) := by
  have h3' : hm.current_index = -1 ↔ hm.history.length = 0 := by
    rw [h3, List.length_eq_zero]
  refine ⟨?_, ?_, ?_, ?_, ?_⟩
  · intro hc
    unfold HistoryManager.undo
    rw [if_pos hc]
    refine ⟨rfl, ?_⟩
    rw [Option.isSome_iff_ne_none, Ne, List.get?_eq_none]
    omega
  · intro hc
    unfold HistoryManager.undo
    rw [if_neg (by omega)]
  · intro hc
    unfold HistoryManager.redo
    rw [if_pos hc]
    refine ⟨rfl, ?_⟩
    rw [Option.isSome_iff_ne_none, Ne, List.get?_eq_none]
    omega
  · intro hc
    unfold HistoryManager.redo
    rw [if_neg (by omega)]
  · intro hlen
    by_cases hl0 : hm.history.length = 0
    · have hc0 : hm.current_index = -1 := h3'.mpr hl0
      constructor
      · unfold HistoryManager.undo
        rw [if_neg (by omega)]
      · unfold HistoryManager.redo
        rw [if_neg (by omega)]
    · have hc1 : hm.current_index ≠ -1 := fun hx => hl0 (h3'.mp hx)
      constructor
      · unfold HistoryManager.undo
        rw [if_neg (by omega)]
      · unfold HistoryManager.redo
        rw [if_neg (by omega)]

/-- Claim C7 witness: undo on history [5,6] at cursor 1 steps back to 5;
on the singleton history [5] both undo and redo are no-ops. -/
theorem claim_C7_witness :
    (⟨[5, 6], 1, 20⟩ : HistoryManager Nat).undo = (⟨[5, 6], 0, 20⟩, some 5) ∧
    (⟨[5], 0, 20⟩ : HistoryManager Nat).undo = (⟨[5], 0, 20⟩, none) ∧
    (⟨[5], 0, 20⟩ : HistoryManager Nat).redo = (⟨[5], 0, 20⟩, none) := by
  have h := claim_C7 Nat ⟨[5, 6], 1, 20⟩ (by decide) (by decide) (by decide)
  have h' := claim_C7 Nat ⟨[5], 0, 20⟩ (by decide) (by decide) (by decide)
  have hu := (h.1 (by decide)).1
  have hs := h'.2.2.2.2 (by decide)
  exact ⟨by rw [hu]; rfl, hs.1, hs.2⟩

/-- Claim C9: undo and redo never change the stored history list, and k
successful undos followed by k redos restore the manager state exactly. -/
theorem claim_C9 (α : Type) (hm : HistoryManager α) (k : Nat)
    (hk : (k : Int) ≤ hm.current_index)
    (h2 : hm.current_index < (hm.history.length : Int)) :
    hm.undo.1.history = hm.history ∧
    hm.redo.1.history = hm.history ∧
    hm.undo.1.max_history = hm.max_history ∧
    hm.redo.1.max_history = hm.max_history ∧
    redoStep^[k] (undoStep^[k] hm) = hm := by
  refine ⟨?_, ?_, ?_, ?_, ?_⟩
  · unfold HistoryManager.undo
    split <;> rfl
  · unfold HistoryManager.redo
    split <;> rfl
  · unfold HistoryManager.undo
    split <;> rfl
  · unfold HistoryManager.redo
    split <;> rfl
  · rw [undoStep_iter k hm hk]
    rw [redoStep_iter k _ (by dsimp only; omega)]
    dsimp only
    have : hm.current_index - k + k = hm.current_index := by omega
    rw [this]

/-- Claim C9 witness: history [7,8,9] at cursor 2, two undos then two
redos restore the state. -/
theorem claim_C9_witness :
    redoStep^[2] (undoStep^[2] (⟨[7, 8, 9], 2, 20⟩ : HistoryManager Nat))
      = ⟨[7, 8, 9], 2, 20⟩ :=
  (claim_C9 Nat ⟨[7, 8, 9], 2, 20⟩ 2 (by decide) (by decide)).2.2.2.2

/-- Claim C10: once more commits than the capacity have happened,
get_first_state returns the oldest retained snapshot, which is a strictly
later commit than the first one ever made, and Reset to Original
restores exactly that snapshot. -/
theorem claim_C10 (l : List Img) (N : Nat) (hN : 1 ≤ N) (hK : N < l.length) :
    (run_adds l (HistoryManager.mkHM Img N)).get_first_state
        = l.get? (l.length - N) ∧
    0 < l.length - N ∧
    (∀ app : App, app.hist = run_adds l (HistoryManager.mkHM Img N) →
      (resetImageH app).currentImg = l.get? (l.length - N)) := by
  have h5 : (run_adds l (HistoryManager.mkHM Img N)).get_first_state
      = l.get? (l.length - N) := by
    rw [HistoryManager.run_adds_mkHM l N hN]
    unfold HistoryManager.get_first_state
    dsimp only
    rw [List.head?_drop, ← List.get?_eq_getElem?]
  obtain ⟨x, hx⟩ : ∃ x, l.get? (l.length - N) = some x := by
    have hne : l.get? (l.length - N) ≠ none := by
      rw [Ne, List.get?_eq_none]; omega
    cases hq : l.get? (l.length - N) with
    | none => exact absurd hq hne
    | some x => exact ⟨x, rfl⟩
  refine ⟨h5, by omega, ?_⟩
  intro app happ
  unfold resetImageH
  rw [happ, h5, hx]

/-- Claim C10 witness: capacity 3 and four commits; the retained first
snapshot is the second commit. -/
theorem claim_C10_witness :
    (run_adds [[[1]], [[2]], [[3]], [[4]]] (HistoryManager.mkHM Img 3)).get_first_state
      = some [[2]] := by
  have h := claim_C10 [[[1]], [[2]], [[3]], [[4]]] 3 (by norm_num) (by norm_num)
  rw [h.1]
  rfl

/-- Claim C6: with every parameter at its neutral default the
brightness handler still routes the anchor through the external
brightness primitive at value 0 instead of skipping the call, for every
choice of external primitives and every anchor.  Its preview is
therefore pixel-identical to the anchor only when that primitive is the
identity at 0, which the uint8 BGR to HSV to BGR round trip inside the
source adjust_brightness is not on color pixels: cv2.cvtColor stores
hue halved and rounded and saturation rescaled, so for example the BGR
pixel (0, 5, 255) comes back as (0, 8, 255). -/
theorem claim_C6 (σ : Type) (blurP brightP contrastP : σ → Int → σ)
    (img base : σ) :
    adjustBrightnessGen blurP brightP contrastP (some img) (some base) 1 0 0
      = some (brightP base 0) := rfl

/-- Claim C8: rotate fails with an invalid-argument error on every angle
outside 90, 180, 270; flip on every direction other than horizontal and
vertical; resize on every non-positive percentage; and whenever such a
domain error occurs through the controller the history store is left
completely unchanged. -/
theorem claim_C8 :
    (∀ (img : Img) (angle : Int), angle ≠ 90 → angle ≠ 180 → angle ≠ 270 →
      ImageProcessor.rotate img angle = .error ImageProcessor.rotateErr ∧
      ∀ app : App, (rotateImageH angle app).hist = app.hist) ∧
    (∀ (img : Img) (direction : String),
      direction ≠ "horizontal" → direction ≠ "vertical" →
      ImageProcessor.flip img direction = .error ImageProcessor.flipErr ∧
      ∀ app : App, (flipImageH direction app).hist = app.hist) ∧
    (∀ (interp : Img → Nat → Nat → Img) (img : Img) (scale : ℚ), scale ≤ 0 →
      ImageProcessor.resize interp img scale = .error ImageProcessor.resizeErr ∧
      ∀ app : App, (resizeImageH interp scale app).hist = app.hist) := by
  refine ⟨?_, ?_, ?_⟩
  · intro img angle ha hb hc
    have herr : ∀ j : Img,
        ImageProcessor.rotate j angle = .error ImageProcessor.rotateErr := by
      intro j
      unfold ImageProcessor.rotate
      rw [if_neg ha, if_neg hb, if_neg hc]
    refine ⟨herr img, ?_⟩
    intro app
    unfold rotateImageH
    cases capp : app.currentImg with
    | none => rfl
    | some i =>
      dsimp only
      rw [herr i]
  · intro img direction ha hb
    have herr : ∀ j : Img,
        ImageProcessor.flip j direction = .error ImageProcessor.flipErr := by
      intro j
      unfold ImageProcessor.flip
      rw [if_neg ha, if_neg hb]
    refine ⟨herr img, ?_⟩
    intro app
    unfold flipImageH
    cases capp : app.currentImg with
    | none => rfl
    | some i =>
      dsimp only
      rw [herr i]
  · intro interp img scale hs
    have herr : ∀ j : Img,
        ImageProcessor.resize interp j scale = .error ImageProcessor.resizeErr := by
      intro j
      unfold ImageProcessor.resize
      rw [if_pos hs]
    refine ⟨herr img, ?_⟩
    intro app
    unfold resizeImageH
    cases capp : app.currentImg with
    | none => rfl
    | some i =>
      dsimp only
      rw [if_pos hs]

/-- Claim C8 witness: angle 45, direction diagonal, scale -5 all error
out and leave the history of a loaded app untouched. -/
theorem claim_C8_witness :
    ImageProcessor.rotate [[1]] 45 = .error ImageProcessor.rotateErr ∧
    (rotateImageH 45 app0).hist = app0.hist ∧
    ImageProcessor.flip [[1]] ("diagonal") = .error ImageProcessor.flipErr ∧
    (flipImageH ("diagonal") app0).hist = app0.hist ∧
    ImageProcessor.resize (fun i _ _ => i) [[1]] (-5) = .error ImageProcessor.resizeErr ∧
    (resizeImageH (fun i _ _ => i) (-5) app0).hist = app0.hist := by
  obtain ⟨hr, hf, hz⟩ := claim_C8
  have hr' := hr [[1]] 45 (by decide) (by decide) (by decide)
  have hf' := hf [[1]] ("diagonal") (by decide) (by decide)
  have hz' := hz (fun i _ _ => i) [[1]] (-5) (by norm_num)
  exact ⟨hr'.1, hr'.2 app0, hf'.1, hf'.2 app0, hz'.1, hz'.2 app0⟩

theorem stepEv_hist (g : Img → Nat → Img) (app : App) (e : Ev) :
    (stepEv g app e).hist = app.hist := by
  cases e with
  | setBlur v =>
    dsimp only [stepEv]
    unfold applyBlurH
    dsimp only
    cases app.currentImg with
    | none => rfl
    | some i =>
      cases app.hist.get_first_state with
      | none => rfl
      | some b => rfl
  | setBright v =>
    dsimp only [stepEv]
    unfold adjustBrightnessH
    dsimp only
    cases app.currentImg with
    | none => rfl
    | some i =>
      cases app.hist.get_first_state with
      | none => rfl
      | some b => rfl
  | setContrast v =>
    dsimp only [stepEv]
    unfold adjustContrastH
    dsimp only
    cases app.currentImg with
    | none => rfl
    | some i =>
      cases app.hist.get_first_state with
      | none => rfl
      | some b => rfl

theorem stepEv_isSome (g : Img → Nat → Img) (app : App) (e : Ev)
    (h : app.currentImg.isSome = true) :
    (stepEv g app e).currentImg.isSome = true := by
  obtain ⟨i, hi⟩ := Option.isSome_iff_exists.mp h
  cases e with
  | setBlur v =>
    dsimp only [stepEv]
    unfold applyBlurH
    dsimp only
    rw [hi]
    cases app.hist.get_first_state with
    | none => rfl
    | some b => rfl
  | setBright v =>
    dsimp only [stepEv]
    unfold adjustBrightnessH
    dsimp only
    rw [hi]
    cases app.hist.get_first_state with
    | none => rfl
    | some b => rfl
  | setContrast v =>
    dsimp only [stepEv]
    unfold adjustContrastH
    dsimp only
    rw [hi]
    cases app.hist.get_first_state with
    | none => rfl
    | some b => rfl

theorem sliders_stepEv (g : Img → Nat → Img) (app : App) (e : Ev) :
    sliders (stepEv g app e) = evUpd e (sliders app) := by
  cases e with
  | setBlur v =>
    dsimp only [stepEv]
    unfold applyBlurH
    dsimp only
    cases app.currentImg with
    | none => rfl
    | some i =>
      cases app.hist.get_first_state with
      | none => rfl
      | some b => rfl
  | setBright v =>
    dsimp only [stepEv]
    unfold adjustBrightnessH
    dsimp only
    cases app.currentImg with
    | none => rfl
    | some i =>
      cases app.hist.get_first_state with
      | none => rfl
      | some b => rfl
  | setContrast v =>
    dsimp only [stepEv]
    unfold adjustContrastH
    dsimp only
    cases app.currentImg with
    | none => rfl
    | some i =>
      cases app.hist.get_first_state with
      | none => rfl
      | some b => rfl

theorem stepEv_char (g : Img → Nat → Img) (app : App) (e : Ev) (base : Img)
    (hs : app.currentImg.isSome = true)
    (hb : app.hist.get_first_state = some base) :
    (stepEv g app e).currentImg
      = some (previewOfEv g e (evUpd e (sliders app)) base) := by
  obtain ⟨i, hi⟩ := Option.isSome_iff_exists.mp hs
  cases e with
  | setBlur v =>
    dsimp only [stepEv]
    unfold applyBlurH
    dsimp only
    rw [hi, hb]
    rfl
  | setBright v =>
    dsimp only [stepEv]
    unfold adjustBrightnessH
    dsimp only
    rw [hi, hb]
    rfl
  | setContrast v =>
    dsimp only [stepEv]
    unfold adjustContrastH
    dsimp only
    rw [hi, hb]
    rfl

theorem runEv_hist (g : Img → Nat → Img) (evs : List Ev) (app : App) :
    (runEv g evs app).hist = app.hist := by
  induction evs generalizing app with
  | nil => rfl
  | cons e evs ih =>
    show (runEv g evs (stepEv g app e)).hist = app.hist
    rw [ih, stepEv_hist]

theorem runEv_isSome (g : Img → Nat → Img) (evs : List Ev) (app : App)
    (h : app.currentImg.isSome = true) :
    (runEv g evs app).currentImg.isSome = true := by
  induction evs generalizing app with
  | nil => exact h
  | cons e evs ih =>
    exact ih (stepEv g app e) (stepEv_isSome g app e h)

/-- Claim C1 counterexample: from the freshly loaded one-pixel image
[[100]], moving brightness to 100 then contrast to -50 and moving them
in the opposite order reach the same slider triple (1, 100, -50) but
produce different previews ([[150]] and [[100]]), because
adjustContrast applies contrast before brightness while adjustBrightness
applies brightness before contrast. -/
theorem claim_C1_counterexample :
    sliders (runEv g0 [Ev.setBright 100, Ev.setContrast (-50)] app0)
        = sliders (runEv g0 [Ev.setContrast (-50), Ev.setBright 100] app0) ∧
    (runEv g0 [Ev.setBright 100, Ev.setContrast (-50)] app0).currentImg
        = some [[150]] ∧
    (runEv g0 [Ev.setContrast (-50), Ev.setBright 100] app0).currentImg
        = some [[100]] ∧
    (some [[150]] : Option Img) ≠ some [[100]] := by
  refine ⟨by decide, by decide, by decide, by decide⟩

/-- Claim C1 amended: every slider handler recomputes the preview from
the anchor get_first_state without accumulation, so the preview after a
sequence of slider events depends only on the final parameter triple and
on which slider was moved last: two event sequences that reach the same
triple and end with the same event give bit-identical previews. -/
theorem claim_C1_amended (g : Img → Nat → Img) (app : App) (base : Img)
    (evs1 evs2 : List Ev) (e : Ev)
    (hs : app.currentImg.isSome = true)
    (hb : app.hist.get_first_state = some base)
    (hp : sliders (runEv g evs1 app) = sliders (runEv g evs2 app)) :
    (runEv g (evs1 ++ [e]) app).currentImg
      = (runEv g (evs2 ++ [e]) app).currentImg := by
  have h1 : runEv g (evs1 ++ [e]) app = stepEv g (runEv g evs1 app) e := by
    unfold runEv
    rw [List.foldl_append]
    rfl
  have h2 : runEv g (evs2 ++ [e]) app = stepEv g (runEv g evs2 app) e := by
    unfold runEv
    rw [List.foldl_append]
    rfl
  rw [h1, h2,
    stepEv_char g (runEv g evs1 app) e base (runEv_isSome g evs1 app hs)
      (by rw [runEv_hist]; exact hb),
    stepEv_char g (runEv g evs2 app) e base (runEv_isSome g evs2 app hs)
      (by rw [runEv_hist]; exact hb),
    hp]

/-- Claim C1 amended witness: two permutations ending with the same
slider event give the same preview. -/
theorem claim_C1_amended_witness :
    (runEv g0 ([Ev.setBright 3, Ev.setContrast 4] ++ [Ev.setContrast 4]) app0).currentImg
      = (runEv g0 ([Ev.setContrast 4, Ev.setBright 3] ++ [Ev.setContrast 4]) app0).currentImg :=
  claim_C1_amended g0 app0 [[100]] [Ev.setBright 3, Ev.setContrast 4]
    [Ev.setContrast 4, Ev.setBright 3] (Ev.setContrast 4)
    (by decide) (by decide) (by decide)

/-- Claim C2 counterexample: after loading [[100]] and committing
[[50]] through updateImage, the store current snapshot is [[50]], yet a
brightness slider move recomputes the preview from get_first_state
[[100]] and shows [[110]], not [[60]] as recomputation from the most
recent commit would give. -/
theorem claim_C2_counterexample :
    (updateImage [[50]] app0).hist.get_current_state = some [[50]] ∧
    (stepEv g0 (updateImage [[50]] app0) (Ev.setBright 10)).currentImg
        = some [[110]] ∧
    ImageProcessor.adjust_brightness [[50]] 10 = [[60]] ∧
    (some [[110]] : Option Img) ≠ some [[60]] := by
  refine ⟨by decide, by decide, by decide, by decide⟩

/-- Claim C2 amended: after every updateImage commit the three sliders
are reset to their defaults and the snapshot is pushed into the store,
and every subsequent slider preview, after any number of further slider
moves and whichever slider moves last, is recomputed from
get_first_state (the oldest retained snapshot, called base here), not
from the most recent commit; in particular an immediately following
brightness move previews the external brightness adjustment of base. -/
theorem claim_C2_amended (g : Img → Nat → Img) (p : Img) (app : App)
    (base : Img)
    (hb : (updateImage p app).hist.get_first_state = some base) :
    (updateImage p app).blurS = 1 ∧
    (updateImage p app).brightS = 0 ∧
    (updateImage p app).contrastS = 0 ∧
    (updateImage p app).hist = app.hist.add_state p ∧
    (∀ (evs : List Ev) (e : Ev),
      (runEv g (evs ++ [e]) (updateImage p app)).currentImg
        = some (previewOfEv g e
            (evUpd e (sliders (runEv g evs (updateImage p app)))) base)) ∧
    (∀ v : Int, (stepEv g (updateImage p app) (Ev.setBright v)).currentImg
      = some (ImageProcessor.adjust_brightness base v)) := by
  refine ⟨rfl, rfl, rfl, rfl, ?_, ?_⟩
  · intro evs e
    have h1 : runEv g (evs ++ [e]) (updateImage p app)
        = stepEv g (runEv g evs (updateImage p app)) e := by
      unfold runEv
      rw [List.foldl_append]
      rfl
    rw [h1, stepEv_char g (runEv g evs (updateImage p app)) e base
      (runEv_isSome g evs (updateImage p app) rfl)
      (by rw [runEv_hist]; exact hb)]
  · intro v
    rw [stepEv_char g (updateImage p app) (Ev.setBright v) base rfl hb]
    norm_num [previewOfEv, previewOfBrightSlider, evUpd, sliders, updateImage]

/-- Claim C2 amended witness: committing [[50]] over the loaded [[100]],
moving contrast and then brightness previews from the anchor [[100]]
with the brightness handler. -/
theorem claim_C2_amended_witness :
    (runEv g0 ([Ev.setContrast 4] ++ [Ev.setBright 10])
        (updateImage [[50]] app0)).currentImg
      = some (previewOfEv g0 (Ev.setBright 10)
          (evUpd (Ev.setBright 10)
            (sliders (runEv g0 [Ev.setContrast 4] (updateImage [[50]] app0))))
          [[100]]) :=
  (claim_C2_amended g0 [[50]] app0 [[100]] (by decide)).2.2.2.2.1
    [Ev.setContrast 4] (Ev.setBright 10)
